import Mathlib

/-!
Verification development for the esp32-Yanmar-ADC engine-monitoring firmware.

The development shallowly embeds the engine performance estimation pipeline:
the curve interpolator, the RPM signal conditioner (src/rpm_sensor.h), the
fuel-flow estimator (src/engine_fuel.h and src/engine_performance.h), the
engine-load estimator (src/engine_load.h) and the run-hours accumulator
(src/engine_hours.h).

Modelling conventions:
- IEEE floats are modelled as exact rationals; a float that may be NaN is
  modelled as an Option value with none standing for NaN.
- The transcendental primitives powf at exponent 0.6, cosf and sinf are
  passed as explicit function parameters; theorems that need facts about
  them (monotonicity, bounds) state those facts as hypotheses that hold for
  the real functions.
- Wall-clock millisecond timestamps are natural numbers; the unsigned
  subtraction now - t0 is read under the standard assumption t0 le now.
-/

namespace Yanmar

-- ===========================================================================
-- DEFINITIONS
-- ===========================================================================

/-- clamp_val from src/engine_fuel.h: (v < lo) ? lo : (v > hi) ? hi : v. -/
def clamp_val (v lo hi : ℚ) : ℚ :=
  if v < lo then lo else if hi < v then hi else v

/-- Modelled from the spec (section 4.1): the Curve Interpolator is library
code (SensESP CurveInterpolator) that is not under src/.  Interpolation step
over the tail of a non-empty breakpoint list: given the previous breakpoint p
and the remaining breakpoints, return the boundary y at or below the first
breakpoint, the linear interpolation between two adjacent breakpoints, and
the boundary y at or beyond the last breakpoint. -/
def interpolate (p : ℚ × ℚ) : List (ℚ × ℚ) → ℚ → ℚ
  | [], _ => p.2
  | q :: rest, x =>
      if x ≤ p.1 then p.2
      else if x ≤ q.1 then p.2 + (x - p.1) * (q.2 - p.2) / (q.1 - p.1)
      else interpolate q rest x

/-- Modelled from the spec (section 4.1): full curve lookup.  An empty
breakpoint table degrades to the invalid marker on every query; a non-empty
table always produces a value. -/
def curve_lookup (samples : List (ℚ × ℚ)) (x : ℚ) : Option ℚ :=
  match samples with
  | [] => none
  | p :: rest => some (interpolate p rest x)

/-- A breakpoint table is well formed when its x coordinates strictly
increase. -/
def CurveSorted (samples : List (ℚ × ℚ)) : Prop :=
  List.Pairwise (fun s t => s.1 < t.1) samples

-- ===========================================================================
-- Shared constants and helpers of src/engine_fuel.h and
-- src/engine_performance.h (the two files define identical copies).
-- ===========================================================================

def DOCK_SPEED_KTS : ℚ := 0.15

def ENGINE_RUNNING_RPM : ℚ := 500

def MS_TO_KTS : ℚ := 1.94384449

def PI_F : ℚ := 3.14159265

/-- stw_invalid from src/engine_fuel.h lines 145-150 (and the identical copy
in src/engine_performance.h): fouling sanity check on the speed log. -/
def stw_invalid (rpm stw_kts : ℚ) : Prop :=
  (3000 < rpm ∧ stw_kts < 4) ∨ (2500 < rpm ∧ stw_kts < 3.5) ∨
    (1000 < rpm ∧ stw_kts < 1)

instance (rpm stw_kts : ℚ) : Decidable (stw_invalid rpm stw_kts) := by
  unfold stw_invalid; infer_instance

/-- wind_load_factor from src/engine_fuel.h lines 155-178 (and the identical
copy in src/engine_performance.h).  cosq and sinq stand for cosf and sinf. -/
def wind_load_factor (cosq sinq : ℚ → ℚ) (aws_kts awa_rad : Option ℚ) : ℚ :=
  match aws_kts, awa_rad with
  | some aws, some awa =>
      if aws < 7 then 1
      else
        let angle := clamp_val |awa| 0 PI_F
        let aws_c := clamp_val aws 7 30
        let head := cosq angle
        let cross := sinq angle
        let strength := (aws_c - 7) / 23
        let penalty :=
          (if 0 < head then strength * head * 0.3 else strength * head * 0.12)
            + strength * cross * 0.18
        clamp_val (1 + penalty) 0.9 1.45
  | _, _ => 1

-- ===========================================================================
-- src/engine_fuel.h — authoritative fuel flow estimator (lines 75-305)
-- ===========================================================================

namespace EngineFuel

def baseline_stw_curve : List (ℚ × ℚ) :=
  [(500, 0), (1000, 0), (1800, 2.5), (2000, 4.3), (2400, 5), (2800, 6.4),
   (3200, 7.3), (3600, 7.45), (3800, 7.6), (3900, 7.6)]

def baseline_fuel_curve : List (ℚ × ℚ) :=
  [(500, 0.6), (1000, 0.75), (1800, 1.1), (2000, 1.5), (2200, 1.85),
   (2400, 2.25), (2500, 2.6), (2800, 3.6), (3000, 4.4), (3200, 5.3),
   (3600, 6.9), (3800, 7.6), (3900, 9.6)]

def rated_fuel_curve : List (ℚ × ℚ) :=
  [(500, 0.9), (1800, 1.4), (2000, 1.8), (2400, 2.45), (2800, 3.8),
   (3200, 5.25), (3600, 7.8), (3900, 9.6)]

def idle_fuel_curve : List (ℚ × ℚ) :=
  [(800, 0.6), (3600, 1.4)]

/-- The rev/s to RPM input conditioning of setup_engine_fuel lines 201-207:
NaN stays NaN, and a converted RPM outside [0, 4500] becomes NaN. -/
def rpm_of_rev_s (rps : Option ℚ) : Option ℚ :=
  match rps with
  | none => none
  | some v => if v * 60 < 0 ∨ 4500 < v * 60 then none else some (v * 60)

/-- The hydrodynamic STW deficit factor of setup_engine_fuel lines 266-274.
powr stands for fun t => powf t 0.6. -/
def stw_deficit_factor (powr : ℚ → ℚ) (use_stw : Bool) (r : ℚ)
    (stw_kts baseSTW : Option ℚ) : ℚ :=
  match stw_kts, baseSTW with
  | some stw, some bs =>
      if use_stw = true ∧ ¬ stw_invalid r stw ∧ DOCK_SPEED_KTS < bs then
        (if 1.05 ≤ bs / stw then clamp_val (powr (bs / stw)) 1 2 else 1)
      else 1
  | _, _ => 1

/-- The dock / idle classification of setup_engine_fuel lines 238-248. -/
def vessel_docked (use_stw : Bool) (stw_kts sog_kts : Option ℚ) : Bool :=
  let stw_low : Bool :=
    match stw_kts with
    | some s => decide (s < DOCK_SPEED_KTS)
    | none => false
  let sog_low : Bool :=
    match sog_kts with
    | some s => decide (s < DOCK_SPEED_KTS)
    | none => false
  if use_stw then stw_low || sog_low else sog_low

/-- The dock / idle branch of setup_engine_fuel lines 250-255: the value
read from the idle fuel curve transform, with the fixed fallback 0.6 when
that value is invalid (NaN) or not positive. -/
def docked_fuel (idleo : Option ℚ) : ℚ :=
  match idleo with
  | none => 0.6
  | some idle => if idle ≤ 0 then 0.6 else idle

/-- The underway branch of setup_engine_fuel lines 257-287: baseline fuel at
RPM times the STW deficit factor times the wind load factor, capped by the
rated fuel ceiling at RPM and clamped to [0, 14]. -/
def underway_fuel (powr cosq sinq : ℚ → ℚ) (use_stw : Bool) (r : ℚ)
    (stw_kts aws_kts awa_rad : Option ℚ) : ℚ :=
  match curve_lookup baseline_fuel_curve r with
  | none => 0.6
  | some baseFuel =>
    if baseFuel ≤ 0 then 0.6
    else
      let stw_factor :=
        stw_deficit_factor powr use_stw r stw_kts
          (curve_lookup baseline_stw_curve r)
      let wind_factor := wind_load_factor cosq sinq aws_kts awa_rad
      let fuel := baseFuel * stw_factor * wind_factor
      let fuel2 :=
        match curve_lookup rated_fuel_curve r with
        | some fm => if fm < fuel then fm else fuel
        | none => fuel
      clamp_val fuel2 0 14

/-- The fuel model lambda of setup_engine_fuel (src/engine_fuel.h lines
223-289), composed with the rev/s to RPM conditioning and the four curve
transforms it reads.  Output in L/h. -/
def fuel_lph_raw (powr cosq sinq : ℚ → ℚ) (use_stw_cfg : ℚ)
    (stw_ms sog_ms aws_ms awa_rad : Option ℚ) (rps : Option ℚ) : ℚ :=
  match rpm_of_rev_s rps with
  | none => 0
  | some r =>
    if r < ENGINE_RUNNING_RPM then 0
    else
      let stw_kts := Option.map (fun v => v * MS_TO_KTS) stw_ms
      let sog_kts := Option.map (fun v => v * MS_TO_KTS) sog_ms
      let use_stw : Bool := decide ((1:ℚ)/2 ≤ use_stw_cfg)
      if vessel_docked use_stw stw_kts sog_kts then
        docked_fuel (curve_lookup idle_fuel_curve r)
      else
        underway_fuel powr cosq sinq use_stw r stw_kts
          (Option.map (fun v => v * MS_TO_KTS) aws_ms) awa_rad

end EngineFuel

-- ===========================================================================
-- src/engine_performance.h — earlier iteration of the fuel flow estimator
-- ===========================================================================

namespace EnginePerformance

def baseline_stw_curve : List (ℚ × ℚ) :=
  [(500, 0), (1000, 0), (1800, 2.5), (2000, 4.3), (2400, 5), (2800, 6.4),
   (3200, 7.3), (3600, 7.45), (3800, 7.6), (3900, 7.6)]

def baseline_fuel_curve : List (ℚ × ℚ) :=
  [(500, 0.6), (1000, 0.75), (1800, 1.95), (2000, 2.3), (2400, 2.45),
   (2800, 2.7), (3200, 3.4), (3600, 5), (3800, 6.4), (3900, 6.5)]

def rated_fuel_curve : List (ℚ × ℚ) :=
  [(500, 0.9), (1800, 1.2), (2000, 1.7), (2400, 2.45), (2800, 3.8),
   (3200, 5.25), (3600, 7.8), (3900, 9.6)]

/-- The rev/s to RPM conditioning of setup_engine_performance lines 293-298:
converted RPM outside [300, 4500] becomes NaN. -/
def rpm_of_rev_s (rps : Option ℚ) : Option ℚ :=
  match rps with
  | none => none
  | some v => if v * 60 < 300 ∨ 4500 < v * 60 then none else some (v * 60)

/-- stw_invalid applied to a possibly-NaN RPM: every comparison against NaN
is false, so a NaN RPM never marks the speed log invalid. -/
def stw_invalid_opt (r : Option ℚ) (stw : ℚ) : Prop :=
  match r with
  | some rr => stw_invalid rr stw
  | none => False

instance (r : Option ℚ) (stw : ℚ) : Decidable (stw_invalid_opt r stw) := by
  unfold stw_invalid_opt
  match r with
  | some rr => infer_instance
  | none => infer_instance

/-- The fuel flow lambda of setup_engine_performance (lines 311-357).  The
values the lambda reads from the three curve transforms are passed in as
baseFuel, baseSTW and fuelMax; r is the possibly-NaN RPM it receives.
This version returns NaN when the baseline fuel value is invalid or not
positive. -/
def fuel_lph_lambda (powr cosq sinq : ℚ → ℚ) (use_stw_val : ℚ)
    (baseFuel baseSTW fuelMax : Option ℚ) (stw aws awa : Option ℚ)
    (r : Option ℚ) : Option ℚ :=
  match baseFuel with
  | none => none
  | some bf =>
    if bf ≤ 0 then none
    else
      let use_stw : Bool := decide ((1:ℚ)/2 ≤ use_stw_val)
      let stw_factor :=
        match stw with
        | some s =>
          if use_stw = true ∧ 0 < s ∧ ¬ stw_invalid_opt r s then
            match baseSTW with
            | some bs =>
                if 1.05 ≤ bs / s then clamp_val (powr (bs / s)) 1 2 else 1
            | none => 1
          else 1
        | none => 1
      let wind_factor := wind_load_factor cosq sinq aws awa
      let fuel := bf * stw_factor * wind_factor
      let fuel2 :=
        match fuelMax with
        | some fm => min fuel fm
        | none => fuel
      some (clamp_val fuel2 0 14)

end EnginePerformance

-- ===========================================================================
-- src/engine_load.h — kW-based engine load estimator
-- ===========================================================================

namespace EngineLoad

def max_power_curve : List (ℚ × ℚ) :=
  [(1800, 17.9), (2000, 20.9), (2400, 24.6), (2800, 26.8), (3200, 28.3),
   (3600, 29.5), (3800, 29.83)]

def BSFC_G_PER_KWH : ℚ := 240

def FUEL_DENSITY_KG_PER_L : ℚ := 0.84

/-- EngineLoadLatchedState from src/engine_load.h lines 59-62: both latches
start as NaN. -/
structure EngineLoadLatchedState where
  rpm : Option ℚ
  max_kW : Option ℚ

def initial_state : EngineLoadLatchedState :=
  { rpm := none, max_kW := none }

/-- The rev/s to RPM sanity check of setup_engine_load lines 79-85. -/
def rpm_sanitize (rps : Option ℚ) : Option ℚ :=
  match rps with
  | none => none
  | some v => if v * 60 < 0 ∨ 4500 < v * 60 then none else some (v * 60)

/-- The RPM latch of setup_engine_load lines 88-93: only finite values are
latched. -/
def latch_rpm (st : EngineLoadLatchedState) (r : Option ℚ) :
    EngineLoadLatchedState :=
  match r with
  | some v => { st with rpm := some v }
  | none => st

/-- The max power latch of setup_engine_load lines 102-107: only finite
positive values are latched. -/
def latch_max_kW (st : EngineLoadLatchedState) (mkW : Option ℚ) :
    EngineLoadLatchedState :=
  match mkW with
  | some v => if 0 < v then { st with max_kW := some v } else st
  | none => st

/-- actual power from fuel, setup_engine_load lines 113-119:
kW = (L/h x kg/L x 1000 g/kg) / (g/kWh); invalid or non-positive fuel
yields 0. -/
def actual_power_kW (lph : Option ℚ) : ℚ :=
  match lph with
  | none => 0
  | some v =>
      if v ≤ 0 then 0 else (v * FUEL_DENSITY_KG_PER_L * 1000) / BSFC_G_PER_KWH

/-- The load fraction lambda of setup_engine_load lines 124-138. -/
def load_fraction (st : EngineLoadLatchedState) (kW : ℚ) : ℚ :=
  match st.rpm with
  | none => 0
  | some r =>
    if r < ENGINE_RUNNING_RPM then 0
    else
      match st.max_kW with
      | none => 0
      | some m => if m ≤ 0 then 0 else clamp_val (kW / m) 0 1

end EngineLoad

-- ===========================================================================
-- src/engine_hours.h — timer-driven engine runtime accumulator
-- ===========================================================================

namespace EngineHours

def REV_S_RUNNING_THRESHOLD : ℚ := 500 / 60

def TICK_INTERVAL_MS : ℕ := 1000

def SAVE_INTERVAL_MS : ℕ := 10000

/-- The state of an EngineHours instance together with the persistent store
(ESP32 NVS behind get_float / put_float).  stored is the value currently
held under the engine_hours key. -/
structure State where
  hours : ℚ
  last_rev_s : Option ℚ
  engine_running : Bool
  last_tick_ms : ℕ
  last_save_ms : ℕ
  stored : ℚ

/-- EngineHours constructor, src/engine_hours.h lines 45-52: load_hours
restores the persisted value into hours before any other processing. -/
def construct (stored : ℚ) : State :=
  { hours := stored, last_rev_s := none, engine_running := false,
    last_tick_ms := 0, last_save_ms := 0, stored := stored }

/-- EngineHours::set, src/engine_hours.h lines 111-117: a NaN sample is
ignored completely; a finite sample is latched. -/
def set (st : State) (rev_s : Option ℚ) : State :=
  match rev_s with
  | none => st
  | some v => { st with last_rev_s := some v }

/-- The running-state determination of the timer callback, src/engine_hours.h
lines 73-79: a NaN latch keeps the previous flag. -/
def next_running (st : State) : Bool :=
  match st.last_rev_s with
  | some v => if REV_S_RUNNING_THRESHOLD ≤ v then true else false
  | none => st.engine_running

/-- The 1 Hz timer callback, src/engine_hours.h lines 63-100: the first
tick only establishes the timebase; afterwards the running flag is derived
from the latched rev/s, wall-clock time is accumulated while running, and
the hours are persisted when at least SAVE_INTERVAL_MS have passed since
the last save. -/
def tick (st : State) (now : ℕ) : State :=
  if st.last_tick_ms = 0 then
    { st with last_tick_ms := now, last_save_ms := now }
  else
    let running : Bool := next_running st
    let hours :=
      if running then st.hours + ((now - st.last_tick_ms : ℕ) : ℚ) / 3600000
      else st.hours
    let st2 : State :=
      { st with
        engine_running := running
        hours := hours
        last_tick_ms := now }
    if SAVE_INTERVAL_MS ≤ now - st2.last_save_ms then
      { st2 with stored := st2.hours, last_save_ms := now }
    else st2

/-- External events driving an EngineHours instance: rev/s samples from the
upstream producer and timer ticks at wall-clock times. -/
inductive Event where
  | sample (rev_s : Option ℚ)
  | tick (now : ℕ)

def run (st : State) : List Event → State
  | [] => st
  | Event.sample v :: rest => run (set st v) rest
  | Event.tick now :: rest => run (tick st now) rest

/-- Wall-clock sanity of an event trace: every tick time is at or after the
previous tick time. -/
def WellTimed (st : State) : List Event → Prop
  | [] => True
  | Event.sample v :: rest => WellTimed (set st v) rest
  | Event.tick now :: rest => st.last_tick_ms ≤ now ∧ WellTimed (tick st now) rest

/-- Inductive invariant tying the accumulated hours to the persisted value. -/
def Inv (st : State) : Prop :=
  st.last_save_ms ≤ st.last_tick_ms ∧
  st.stored ≤ st.hours ∧
  (st.last_tick_ms = 0 → st.hours = st.stored) ∧
  (st.last_tick_ms ≠ 0 →
    st.hours - st.stored ≤
      ((st.last_tick_ms - st.last_save_ms : ℕ) : ℚ) / 3600000 ∧
    st.last_tick_ms - st.last_save_ms < SAVE_INTERVAL_MS)

end EngineHours

-- ===========================================================================
-- src/rpm_sensor.h — stabilized RPM signal conditioner
-- ===========================================================================

namespace RpmSensor

def RPM_HOLD_MS : ℕ := 2000

/-- The function-local static latches of the rpm_stable stabilizer
(src/rpm_sensor.h lines 288-312). -/
structure StabState where
  last_valid_rpm : ℚ
  last_valid_ms : ℕ

def initial : StabState := { last_valid_rpm := 0, last_valid_ms := 0 }

/-- The hold-or-decay tail of the stabilizer: keep the latched value while
inside the hold window, then drop the latch to 0 and emit 0. -/
def rpm_stable_hold (st : StabState) (now : ℕ) : StabState × ℚ :=
  if now - st.last_valid_ms < RPM_HOLD_MS then (st, st.last_valid_rpm)
  else ({ st with last_valid_rpm := 0 }, 0)

/-- One invocation of the rpm_stable lambda (src/rpm_sensor.h lines
288-312) on a raw RPM sample at time now; returns the new latch state and
the emitted value.  The emitted value is always a plain rational: the
stabilizer never emits NaN. -/
def rpm_stable_step (st : StabState) (now : ℕ) (rpm : Option ℚ) :
    StabState × ℚ :=
  match rpm with
  | some r =>
      if ENGINE_RUNNING_RPM ≤ r then
        ({ last_valid_rpm := r, last_valid_ms := now }, r)
      else rpm_stable_hold st now
  | none => rpm_stable_hold st now

/-- Outputs of the stabilizer over a timed sample sequence. -/
def rpm_stable_run (st : StabState) : List (ℕ × Option ℚ) → List ℚ
  | [] => []
  | (t, smp) :: rest =>
      let out := rpm_stable_step st t smp
      out.2 :: rpm_stable_run out.1 rest

/-- A raw sample that does not count as a valid engine speed: NaN or below
the running threshold. -/
def rpm_invalid (o : Option ℚ) : Prop :=
  ∀ r, o = some r → r < ENGINE_RUNNING_RPM

end RpmSensor

-- ===========================================================================
-- THEOREMS
-- ===========================================================================

theorem clamp_val_mem (v lo hi : ℚ) (h : lo ≤ hi) :
    lo ≤ clamp_val v lo hi ∧ clamp_val v lo hi ≤ hi := by
  unfold clamp_val
  split_ifs with h1 h2 <;> constructor <;> linarith

theorem clamp_val_mono (v w lo hi : ℚ) (hlohi : lo ≤ hi) (h : v ≤ w) :
    clamp_val v lo hi ≤ clamp_val w lo hi := by
  unfold clamp_val
  split_ifs <;> linarith

theorem curve_lookup_at_or_below_head (p : ℚ × ℚ) (rest : List (ℚ × ℚ))
    (x : ℚ) (hx : x ≤ p.1) :
    curve_lookup (p :: rest) x = some p.2 := by
  cases rest with
  | nil => rfl
  | cons q r => simp [curve_lookup, interpolate, hx]

theorem interpolate_at_or_above_last (p : ℚ × ℚ) (rest : List (ℚ × ℚ))
    (x : ℚ) (hs : CurveSorted (p :: rest))
    (hx : ∀ s ∈ p :: rest, s.1 ≤ x) :
    interpolate p rest x = ((p :: rest).getLast (by simp)).2 := by
  induction rest generalizing p with
  | nil => simp [interpolate]
  | cons q r ih =>
    have hpq : p.1 < q.1 := (List.pairwise_cons.mp hs).1 q (by simp)
    have hqx : q.1 ≤ x := hx q (by simp)
    have hpx : ¬ x ≤ p.1 := by push_neg; exact lt_of_lt_of_le hpq hqx
    have hlast : ((p :: q :: r).getLast (by simp)) = ((q :: r).getLast (by simp)) := by
      simp [List.getLast]
    rw [show interpolate p (q :: r) x =
        (if x ≤ p.1 then p.2
         else if x ≤ q.1 then p.2 + (x - p.1) * (q.2 - p.2) / (q.1 - p.1)
         else interpolate q r x) from rfl]
    rw [if_neg hpx, hlast]
    by_cases hxq : x ≤ q.1
    · have hxeq : x = q.1 := le_antisymm hxq hqx
      have hr : r = [] := by
        cases r with
        | nil => rfl
        | cons a b =>
          have hps : List.Pairwise (fun s t => (s : ℚ × ℚ).1 < t.1) (q :: a :: b) :=
            (List.pairwise_cons.mp hs).2
          have hqa : q.1 < a.1 := (List.pairwise_cons.mp hps).1 a (by simp)
          have hax : a.1 ≤ x := hx a (by simp)
          exact absurd (lt_of_lt_of_le hqa hax) (by rw [hxeq]; exact lt_irrefl _)
      subst hr
      rw [if_pos hxq]
      have hne : q.1 - p.1 ≠ 0 := by linarith
      simp only [List.getLast]
      field_simp [hxeq]
    · rw [if_neg hxq]
      have := ih q (List.pairwise_cons.mp hs).2 (fun s hsm => hx s (by simp [hsm]))
      rw [this]

theorem interpolate_adjacent (l₁ : List (ℚ × ℚ)) (p : ℚ × ℚ) (l : List (ℚ × ℚ))
    (a b : ℚ × ℚ) (l₂ : List (ℚ × ℚ)) (x : ℚ)
    (hs : CurveSorted (p :: l)) (hsplit : p :: l = l₁ ++ a :: b :: l₂)
    (hax : a.1 ≤ x) (hxb : x ≤ b.1) :
    interpolate p l x = a.2 + (x - a.1) * (b.2 - a.2) / (b.1 - a.1) := by
  induction l₁ generalizing p l with
  | nil =>
    simp only [List.nil_append, List.cons.injEq] at hsplit
    obtain ⟨hp, hl⟩ := hsplit
    subst hp; subst hl
    have hab : p.1 < b.1 := (List.pairwise_cons.mp hs).1 b (by simp)
    rw [show interpolate p (b :: l₂) x =
        (if x ≤ p.1 then p.2
         else if x ≤ b.1 then p.2 + (x - p.1) * (b.2 - p.2) / (b.1 - p.1)
         else interpolate b l₂ x) from rfl]
    by_cases hxa : x ≤ p.1
    · have hxeq : x = p.1 := le_antisymm hxa hax
      rw [if_pos hxa, hxeq]
      simp
    · rw [if_neg hxa, if_pos hxb]
  | cons c l₁ ih =>
    simp only [List.cons_append, List.cons.injEq] at hsplit
    obtain ⟨hp, hl⟩ := hsplit
    subst hp
    have hamem : a ∈ l := by
      rw [hl]; exact List.mem_append_right _ (by simp)
    have hca : p.1 < a.1 := (List.pairwise_cons.mp hs).1 a hamem
    have hcx : ¬ x ≤ p.1 := by push_neg; exact lt_of_lt_of_le hca hax
    cases l₁ with
    | nil =>
      simp only [List.nil_append] at hl
      subst hl
      rw [show interpolate p (a :: b :: l₂) x =
          (if x ≤ p.1 then p.2
           else if x ≤ a.1 then p.2 + (x - p.1) * (a.2 - p.2) / (a.1 - p.1)
           else interpolate a (b :: l₂) x) from rfl]
      rw [if_neg hcx]
      by_cases hxa : x ≤ a.1
      · have hxeq : x = a.1 := le_antisymm hxa hax
        rw [if_pos hxa, hxeq]
        have hne : a.1 - p.1 ≠ 0 := by linarith
        field_simp
      · rw [if_neg hxa]
        exact ih a (b :: l₂) (List.pairwise_cons.mp hs).2 rfl
    | cons d l₁ =>
      simp only [List.cons_append] at hl
      subst hl
      have hda : d.1 < a.1 := by
        have hps := (List.pairwise_cons.mp hs).2
        exact (List.pairwise_cons.mp hps).1 a
          (List.mem_append_right _ (by simp))
      have hdx : ¬ x ≤ d.1 := by push_neg; exact lt_of_lt_of_le hda hax
      rw [show interpolate p (d :: (l₁ ++ a :: b :: l₂)) x =
          (if x ≤ p.1 then p.2
           else if x ≤ d.1 then p.2 + (x - p.1) * (d.2 - p.2) / (d.1 - p.1)
           else interpolate d (l₁ ++ a :: b :: l₂) x) from rfl]
      rw [if_neg hcx, if_neg hdx]
      exact ih d (l₁ ++ a :: b :: l₂) (List.pairwise_cons.mp hs).2 rfl

theorem interpolate_range (p : ℚ × ℚ) (l : List (ℚ × ℚ)) (x lo hi : ℚ)
    (hs : CurveSorted (p :: l))
    (hy : ∀ s ∈ p :: l, lo ≤ s.2 ∧ s.2 ≤ hi) :
    lo ≤ interpolate p l x ∧ interpolate p l x ≤ hi := by
  induction l generalizing p with
  | nil => exact hy p (by simp)
  | cons q r ih =>
    have hpq : p.1 < q.1 := (List.pairwise_cons.mp hs).1 q (by simp)
    rw [show interpolate p (q :: r) x =
        (if x ≤ p.1 then p.2
         else if x ≤ q.1 then p.2 + (x - p.1) * (q.2 - p.2) / (q.1 - p.1)
         else interpolate q r x) from rfl]
    by_cases h1 : x ≤ p.1
    · rw [if_pos h1]; exact hy p (by simp)
    · rw [if_neg h1]
      by_cases h2 : x ≤ q.1
      · rw [if_pos h2]
        push_neg at h1
        have hd : (0:ℚ) < q.1 - p.1 := by linarith
        have hu0 : (0:ℚ) ≤ (x - p.1) / (q.1 - p.1) :=
          div_nonneg (by linarith) (by linarith)
        have hu1 : (x - p.1) / (q.1 - p.1) ≤ 1 := by
          rw [div_le_one hd]; linarith
        have hval : p.2 + (x - p.1) * (q.2 - p.2) / (q.1 - p.1) =
            p.2 + (q.2 - p.2) * ((x - p.1) / (q.1 - p.1)) := by ring
        rw [hval]
        obtain ⟨hp1, hp2⟩ := hy p (by simp)
        obtain ⟨hq1, hq2⟩ := hy q (by simp)
        set u := (x - p.1) / (q.1 - p.1) with hu
        constructor
        · nlinarith [mul_nonneg (by linarith : (0:ℚ) ≤ 1 - u) (by linarith : (0:ℚ) ≤ p.2 - lo),
            mul_nonneg hu0 (by linarith : (0:ℚ) ≤ q.2 - lo)]
        · nlinarith [mul_nonneg (by linarith : (0:ℚ) ≤ 1 - u) (by linarith : (0:ℚ) ≤ hi - p.2),
            mul_nonneg hu0 (by linarith : (0:ℚ) ≤ hi - q.2)]
      · rw [if_neg h2]
        exact ih q (List.pairwise_cons.mp hs).2 (fun s hsm => hy s (by simp [hsm]))

theorem curve_lookup_range (samples : List (ℚ × ℚ)) (x lo hi y : ℚ)
    (hs : CurveSorted samples)
    (hy : ∀ s ∈ samples, lo ≤ s.2 ∧ s.2 ≤ hi)
    (h : curve_lookup samples x = some y) :
    lo ≤ y ∧ y ≤ hi := by
  cases samples with
  | nil => simp [curve_lookup] at h
  | cons p rest =>
    simp only [curve_lookup, Option.some.injEq] at h
    rw [← h]
    exact interpolate_range p rest x lo hi hs hy

/-- C7: for every non-empty strictly increasing breakpoint table and every
query x, the Curve Interpolator returns a value (never the invalid marker);
at or below the first breakpoint it returns exactly the first y; at or above
the last breakpoint it returns exactly the last y; and between two adjacent
breakpoints it returns the linear interpolation. -/
theorem c7_curve_interpolator_contract (p : ℚ × ℚ) (rest : List (ℚ × ℚ))
    (x : ℚ) (hs : CurveSorted (p :: rest)) :
    (∃ y, curve_lookup (p :: rest) x = some y) ∧
    (x ≤ p.1 → curve_lookup (p :: rest) x = some p.2) ∧
    ((∀ s ∈ p :: rest, s.1 ≤ x) →
      curve_lookup (p :: rest) x =
        some (((p :: rest).getLast (List.cons_ne_nil p rest)).2)) ∧
    (∀ l₁ a b l₂, p :: rest = l₁ ++ a :: b :: l₂ → a.1 ≤ x → x ≤ b.1 →
      curve_lookup (p :: rest) x =
        some (a.2 + (x - a.1) * (b.2 - a.2) / (b.1 - a.1))) := by
  refine ⟨⟨interpolate p rest x, rfl⟩, ?_, ?_, ?_⟩
  · intro hx
    exact curve_lookup_at_or_below_head p rest x hx
  · intro hx
    simp only [curve_lookup, Option.some.injEq]
    exact interpolate_at_or_above_last p rest x hs hx
  · intro l₁ a b l₂ hsplit hax hxb
    simp only [curve_lookup, Option.some.injEq]
    exact interpolate_adjacent l₁ p rest a b l₂ x hs hsplit hax hxb

/-- Witness for C7 at the concrete table [(0,1),(10,3)]: the interior query
5 interpolates to 2, the out-of-range query 11 clamps to the last y. -/
theorem c7_curve_interpolator_contract_witness :
    curve_lookup [((0:ℚ),(1:ℚ)), ((10:ℚ),(3:ℚ))] 5 = some 2 ∧
    curve_lookup [((0:ℚ),(1:ℚ)), ((10:ℚ),(3:ℚ))] 11 = some 3 := by
  have hsorted : CurveSorted [((0:ℚ),(1:ℚ)), ((10:ℚ),(3:ℚ))] := by
    simp [CurveSorted]
  constructor
  · have h := (c7_curve_interpolator_contract (0,1) [(10,3)] 5 hsorted).2.2.2
      [] (0,1) (10,3) [] rfl (by norm_num) (by norm_num)
    rw [h]; norm_num
  · have h := (c7_curve_interpolator_contract (0,1) [(10,3)] 11 hsorted).2.2.1
      (by
        intro s hsm
        simp only [List.mem_cons, List.mem_singleton] at hsm
        rcases hsm with h | h | h
        · rw [h]; norm_num
        · rw [h]; norm_num
        · exact absurd h (by simp))
    rw [h]; rfl

theorem wind_load_factor_range (cosq sinq : ℚ → ℚ) (aws_kts awa_rad : Option ℚ) :
    (9:ℚ)/10 ≤ wind_load_factor cosq sinq aws_kts awa_rad ∧
    wind_load_factor cosq sinq aws_kts awa_rad ≤ (29:ℚ)/20 := by
  unfold wind_load_factor
  match aws_kts, awa_rad with
  | none, none => norm_num
  | none, some _ => norm_num
  | some _, none => norm_num
  | some aws, some awa =>
    by_cases h : aws < 7
    · simp [h]; norm_num
    · simp only [h, if_false]
      have := clamp_val_mem ((1:ℚ) +
        ((if 0 < cosq (clamp_val |awa| 0 PI_F) then
            (clamp_val aws 7 30 - 7) / 23 * cosq (clamp_val |awa| 0 PI_F) * 0.3
          else (clamp_val aws 7 30 - 7) / 23 * cosq (clamp_val |awa| 0 PI_F) * 0.12)
          + (clamp_val aws 7 30 - 7) / 23 * sinq (clamp_val |awa| 0 PI_F) * 0.18))
        0.9 1.45 (by norm_num)
      constructor
      · exact le_trans (by norm_num) this.1
      · exact le_trans this.2 (by norm_num)

namespace EngineFuel

theorem idle_fuel_curve_sorted : CurveSorted idle_fuel_curve := by
  simp [CurveSorted, idle_fuel_curve]; norm_num

theorem baseline_fuel_curve_sorted : CurveSorted baseline_fuel_curve := by
  simp [CurveSorted, baseline_fuel_curve]; norm_num

theorem baseline_stw_curve_sorted : CurveSorted baseline_stw_curve := by
  simp [CurveSorted, baseline_stw_curve]; norm_num

theorem rated_fuel_curve_sorted : CurveSorted rated_fuel_curve := by
  simp [CurveSorted, rated_fuel_curve]; norm_num

theorem idle_fuel_curve_bounds :
    ∀ s ∈ idle_fuel_curve, (3:ℚ)/5 ≤ s.2 ∧ s.2 ≤ (7:ℚ)/5 := by
  intro s hsm
  simp only [idle_fuel_curve, List.mem_cons, List.mem_singleton] at hsm
  rcases hsm with h | h | h
  · rw [h]; norm_num
  · rw [h]; norm_num
  · exact absurd h (by simp)

theorem rated_fuel_curve_bounds :
    ∀ s ∈ rated_fuel_curve, (9:ℚ)/10 ≤ s.2 ∧ s.2 ≤ (48:ℚ)/5 := by
  intro s hsm
  simp only [rated_fuel_curve, List.mem_cons, List.mem_singleton] at hsm
  rcases hsm with h | h | h | h | h | h | h | h | h <;>
    first
    | (rw [h]; norm_num)
    | exact absurd h (by simp)

theorem docked_fuel_range (r : ℚ) :
    (3:ℚ)/5 ≤ docked_fuel (curve_lookup idle_fuel_curve r) ∧
    docked_fuel (curve_lookup idle_fuel_curve r) ≤ (7:ℚ)/5 := by
  unfold docked_fuel
  cases h : curve_lookup idle_fuel_curve r with
  | none => norm_num
  | some idle =>
    have hb := curve_lookup_range idle_fuel_curve r ((3:ℚ)/5) ((7:ℚ)/5) idle
      idle_fuel_curve_sorted idle_fuel_curve_bounds h
    by_cases hle : idle ≤ 0
    · simp only [hle, if_true]; norm_num
    · simp only [hle, if_false]; exact hb

theorem stw_deficit_factor_range (powr : ℚ → ℚ) (use_stw : Bool) (r : ℚ)
    (stw_kts baseSTW : Option ℚ) :
    1 ≤ stw_deficit_factor powr use_stw r stw_kts baseSTW ∧
    stw_deficit_factor powr use_stw r stw_kts baseSTW ≤ 2 := by
  unfold stw_deficit_factor
  match stw_kts, baseSTW with
  | none, none => norm_num
  | none, some _ => norm_num
  | some _, none => norm_num
  | some stw, some bs =>
    by_cases hcond : use_stw = true ∧ ¬ stw_invalid r stw ∧ DOCK_SPEED_KTS < bs
    · simp only [hcond, if_true]
      by_cases hratio : (21:ℚ)/20 ≤ bs / stw
      · have h105 : ((1.05:ℚ)) = (21:ℚ)/20 := by norm_num
        simp only [h105, hratio, if_true]
        exact clamp_val_mem (powr (bs / stw)) 1 2 (by norm_num)
      · have h105 : ((1.05:ℚ)) = (21:ℚ)/20 := by norm_num
        simp only [h105, hratio, if_false]; norm_num
    · simp only [hcond, if_false]; norm_num

theorem underway_fuel_range (powr cosq sinq : ℚ → ℚ) (use_stw : Bool) (r : ℚ)
    (stw_kts aws_kts awa_rad : Option ℚ) :
    0 ≤ underway_fuel powr cosq sinq use_stw r stw_kts aws_kts awa_rad ∧
    underway_fuel powr cosq sinq use_stw r stw_kts aws_kts awa_rad ≤ 14 := by
  unfold underway_fuel
  cases h : curve_lookup baseline_fuel_curve r with
  | none => norm_num
  | some baseFuel =>
    by_cases hle : baseFuel ≤ 0
    · simp only [hle, if_true]; norm_num
    · simp only [hle, if_false]
      cases hm : curve_lookup rated_fuel_curve r with
      | none => exact clamp_val_mem _ 0 14 (by norm_num)
      | some fm => exact clamp_val_mem _ 0 14 (by norm_num)

theorem fuel_lph_raw_range (powr cosq sinq : ℚ → ℚ) (use_stw_cfg : ℚ)
    (stw_ms sog_ms aws_ms awa_rad rps : Option ℚ) :
    0 ≤ fuel_lph_raw powr cosq sinq use_stw_cfg stw_ms sog_ms aws_ms awa_rad rps ∧
    fuel_lph_raw powr cosq sinq use_stw_cfg stw_ms sog_ms aws_ms awa_rad rps ≤ 14 := by
  unfold fuel_lph_raw
  cases hr : rpm_of_rev_s rps with
  | none => norm_num
  | some r =>
    by_cases hrun : r < ENGINE_RUNNING_RPM
    · simp only [hrun, if_true]; norm_num
    · simp only [hrun, if_false]
      by_cases hd : vessel_docked (decide ((1:ℚ)/2 ≤ use_stw_cfg))
          (Option.map (fun v => v * MS_TO_KTS) stw_ms)
          (Option.map (fun v => v * MS_TO_KTS) sog_ms) = true
      · simp only [hd, if_true]
        have := docked_fuel_range r
        constructor <;> linarith [this.1, this.2]
      · simp only [hd, if_false]
        exact underway_fuel_range powr cosq sinq _ r _ _ awa_rad

theorem if_lt_eq_min (fm a : ℚ) : (if fm < a then fm else a) = min fm a := by
  rcases lt_or_le fm a with h | h
  · rw [if_pos h, min_eq_left (le_of_lt h)]
  · rw [if_neg (not_lt.mpr h), min_eq_right h]

theorem stw_deficit_factor_stw_antitone (powr : ℚ → ℚ) (u : Bool) (r : ℚ)
    (stw stw' : ℚ) (bso : Option ℚ)
    (hpm : ∀ x y, 1 ≤ x → x ≤ y → powr x ≤ powr y)
    (h0 : 0 < stw') (hss : stw' ≤ stw)
    (hv : ¬ stw_invalid r stw) (hv' : ¬ stw_invalid r stw') :
    stw_deficit_factor powr u r (some stw) bso ≤
    stw_deficit_factor powr u r (some stw') bso := by
  unfold stw_deficit_factor
  cases bso with
  | none => simp only []; exact le_refl 1
  | some bs =>
    simp only []
    by_cases hcond : u = true ∧ DOCK_SPEED_KTS < bs
    · obtain ⟨hu, hbs⟩ := hcond
      have hc1 : u = true ∧ ¬ stw_invalid r stw ∧ DOCK_SPEED_KTS < bs :=
        ⟨hu, hv, hbs⟩
      have hc2 : u = true ∧ ¬ stw_invalid r stw' ∧ DOCK_SPEED_KTS < bs :=
        ⟨hu, hv', hbs⟩
      rw [if_pos hc1, if_pos hc2]
      have hbs0 : 0 < bs := lt_trans (by norm_num [DOCK_SPEED_KTS]) hbs
      have hstw0 : 0 < stw := lt_of_lt_of_le h0 hss
      have hratio : bs / stw ≤ bs / stw' := by
        rw [div_le_div_iff hstw0 h0]
        exact mul_le_mul_of_nonneg_left hss hbs0.le
      by_cases hdb : (1.05:ℚ) ≤ bs / stw
      · have hdb' : (1.05:ℚ) ≤ bs / stw' := le_trans hdb hratio
        rw [if_pos hdb, if_pos hdb']
        exact clamp_val_mono _ _ 1 2 (by norm_num)
          (hpm _ _ (by linarith) hratio)
      · rw [if_neg hdb]
        by_cases hdb' : (1.05:ℚ) ≤ bs / stw'
        · rw [if_pos hdb']
          exact (clamp_val_mem (powr (bs / stw')) 1 2 (by norm_num)).1
        · rw [if_neg hdb']
    · have hn : ¬ (u = true ∧ ¬ stw_invalid r stw ∧ DOCK_SPEED_KTS < bs) := by
        tauto
      have hn' : ¬ (u = true ∧ ¬ stw_invalid r stw' ∧ DOCK_SPEED_KTS < bs) := by
        tauto
      rw [if_neg hn, if_neg hn']

theorem underway_fuel_le_of_factor_le (powr cosq sinq : ℚ → ℚ) (u : Bool)
    (r : ℚ) (stwA stwB aws awa : Option ℚ) (bf fm : ℚ)
    (hbfr : curve_lookup baseline_fuel_curve r = some bf)
    (hfmr : curve_lookup rated_fuel_curve r = some fm)
    (hg : stw_deficit_factor powr u r stwA (curve_lookup baseline_stw_curve r) ≤
          stw_deficit_factor powr u r stwB (curve_lookup baseline_stw_curve r)) :
    underway_fuel powr cosq sinq u r stwA aws awa ≤
    underway_fuel powr cosq sinq u r stwB aws awa := by
  unfold underway_fuel
  rw [hbfr]
  simp only []
  by_cases hle : bf ≤ 0
  · simp only [if_pos hle]
    exact le_refl _
  · simp only [if_neg hle]
    push_neg at hle
    have hw := wind_load_factor_range cosq sinq aws awa
    set gA := stw_deficit_factor powr u r stwA
      (curve_lookup baseline_stw_curve r) with hgA
    set gB := stw_deficit_factor powr u r stwB
      (curve_lookup baseline_stw_curve r) with hgB
    set w := wind_load_factor cosq sinq aws awa with hwd
    have hprod : bf * gA * w ≤ bf * gB * w := by
      apply mul_le_mul_of_nonneg_right _ (by linarith [hw.1])
      exact mul_le_mul_of_nonneg_left hg hle.le
    rw [hfmr]
    simp only []
    rw [if_lt_eq_min, if_lt_eq_min]
    exact clamp_val_mono _ _ 0 14 (by norm_num)
      (min_le_min (le_refl fm) hprod)

theorem min_scale_nine_tenths (fm a b : ℚ) (hfm : 0 ≤ fm) (ha : 0 ≤ a)
    (hab : (9:ℚ)/10 * a ≤ b) : (9:ℚ)/10 * min fm a ≤ min fm b := by
  rw [min_def, min_def]
  split_ifs <;> linarith

theorem clamp_scale_nine_tenths (x y : ℚ) (hx : 0 ≤ x)
    (hxy : (9:ℚ)/10 * x ≤ y) :
    (9:ℚ)/10 * clamp_val x 0 14 ≤ clamp_val y 0 14 := by
  unfold clamp_val
  split_ifs <;> linarith

theorem underway_fuel_wind_lower_bound (powr cosq sinq : ℚ → ℚ) (u : Bool)
    (r : ℚ) (stw aws awa : Option ℚ) :
    (9:ℚ)/10 * underway_fuel powr cosq sinq u r stw none none ≤
    underway_fuel powr cosq sinq u r stw aws awa := by
  unfold underway_fuel
  cases hbf : curve_lookup baseline_fuel_curve r with
  | none => norm_num
  | some bf =>
    simp only []
    by_cases hle : bf ≤ 0
    · simp only [if_pos hle]; norm_num
    · simp only [if_neg hle]
      push_neg at hle
      have hwN : wind_load_factor cosq sinq none none = 1 := rfl
      have hw := wind_load_factor_range cosq sinq aws awa
      have hg := stw_deficit_factor_range powr u r stw
        (curve_lookup baseline_stw_curve r)
      set g := stw_deficit_factor powr u r stw
        (curve_lookup baseline_stw_curve r) with hgdef
      set w := wind_load_factor cosq sinq aws awa with hwdef
      rw [hwN]
      have hbg : 0 ≤ bf * g := mul_nonneg hle.le (by linarith [hg.1])
      have ha : 0 ≤ bf * g * 1 := by rw [mul_one]; exact hbg
      have hab : (9:ℚ)/10 * (bf * g * 1) ≤ bf * g * w := by
        rw [mul_one]
        nlinarith [mul_nonneg hbg (by linarith [hw.1] : (0:ℚ) ≤ w - 9/10)]
      cases hfm : curve_lookup rated_fuel_curve r with
      | none => exact clamp_scale_nine_tenths _ _ ha hab
      | some fm =>
        have hfm0 : 0 ≤ fm := by
          have := curve_lookup_range rated_fuel_curve r ((9:ℚ)/10) ((48:ℚ)/5)
            fm rated_fuel_curve_sorted rated_fuel_curve_bounds hfm
          linarith [this.1]
        simp only []
        rw [if_lt_eq_min, if_lt_eq_min]
        exact clamp_scale_nine_tenths _ _ (le_min hfm0 ha)
          (min_scale_nine_tenths fm _ _ hfm0 ha hab)

theorem vessel_docked_stw_ge (u : Bool) (x : ℚ) (sogk : Option ℚ)
    (h : DOCK_SPEED_KTS ≤ x) :
    vessel_docked u (some x) sogk = vessel_docked u none sogk := by
  unfold vessel_docked
  have hd : decide (x < DOCK_SPEED_KTS) = false := decide_eq_false (not_lt.mpr h)
  cases u <;> simp [hd]

theorem idle_le_rated (r : ℚ) (h1 : 500 ≤ r) (h2 : r ≤ 4500) (yi yr : ℚ)
    (hi : curve_lookup idle_fuel_curve r = some yi)
    (hr : curve_lookup rated_fuel_curve r = some yr) : yi ≤ yr := by
  have hyi := curve_lookup_range idle_fuel_curve r ((3:ℚ)/5) ((7:ℚ)/5) yi
    idle_fuel_curve_sorted idle_fuel_curve_bounds hi
  have hyr := curve_lookup_range rated_fuel_curve r ((9:ℚ)/10) ((48:ℚ)/5) yr
    rated_fuel_curve_sorted rated_fuel_curve_bounds hr
  simp only [idle_fuel_curve, curve_lookup, Option.some.injEq] at hi
  simp only [rated_fuel_curve, curve_lookup, Option.some.injEq] at hr
  by_cases hc : r ≤ 1800
  · have hsmall : yi ≤ (31:ℚ)/35 := by
      rw [← hi]
      simp only [interpolate]
      norm_num
      split_ifs <;> linarith
    linarith [hyr.1]
  · push_neg at hc
    have hbig : (7:ℚ)/5 ≤ yr := by
      rw [← hr]
      simp only [interpolate]
      norm_num
      split_ifs <;> linarith
    linarith [hyi.2]

end EngineFuel

namespace EnginePerformance

theorem perf_baseline_fuel_curve_sorted : CurveSorted baseline_fuel_curve := by
  simp [CurveSorted, baseline_fuel_curve]; norm_num

theorem baseline_fuel_curve_bounds :
    ∀ s ∈ baseline_fuel_curve, (3:ℚ)/5 ≤ s.2 ∧ s.2 ≤ (13:ℚ)/2 := by
  intro s hsm
  simp only [baseline_fuel_curve, List.mem_cons, List.mem_singleton] at hsm
  rcases hsm with h | h | h | h | h | h | h | h | h | h | h <;>
    first
    | (rw [h]; norm_num)
    | exact absurd h (by simp)

end EnginePerformance

-- ===========================================================================
-- Claim C1
-- ===========================================================================

/-- C1: for every combination of finite or missing (NaN) inputs, the fuel
flow estimator output is finite, never negative, and at most the hard
ceiling of 14 L/h.  First conjunct: the authoritative estimator of
src/engine_fuel.h, unconditionally.  Second conjunct: the baseline fuel
curve of src/engine_performance.h only produces positive values.  Third
conjunct: the src/engine_performance.h lambda, whose output is a finite
value in [0, 14] whenever the baseline fuel transform it reads holds a
positive value, which by the second conjunct it always does. -/
theorem c1_fuel_flow_never_invalid :
    (∀ powr cosq sinq use_stw_cfg stw_ms sog_ms aws_ms awa_rad rps,
      0 ≤ EngineFuel.fuel_lph_raw powr cosq sinq use_stw_cfg
            stw_ms sog_ms aws_ms awa_rad rps ∧
      EngineFuel.fuel_lph_raw powr cosq sinq use_stw_cfg
            stw_ms sog_ms aws_ms awa_rad rps ≤ 14) ∧
    (∀ q y, curve_lookup EnginePerformance.baseline_fuel_curve q = some y →
      0 < y) ∧
    (∀ powr cosq sinq use_stw_val baseFuel baseSTW fuelMax stw aws awa r,
      (∃ bf, baseFuel = some bf ∧ 0 < bf) →
      ∃ v, EnginePerformance.fuel_lph_lambda powr cosq sinq use_stw_val
            baseFuel baseSTW fuelMax stw aws awa r = some v ∧
           0 ≤ v ∧ v ≤ 14) := by
  refine ⟨?_, ?_, ?_⟩
  · intro powr cosq sinq use_stw_cfg stw_ms sog_ms aws_ms awa_rad rps
    exact EngineFuel.fuel_lph_raw_range powr cosq sinq use_stw_cfg
      stw_ms sog_ms aws_ms awa_rad rps
  · intro q y h
    have := curve_lookup_range EnginePerformance.baseline_fuel_curve q
      ((3:ℚ)/5) ((13:ℚ)/2) y EnginePerformance.perf_baseline_fuel_curve_sorted
      EnginePerformance.baseline_fuel_curve_bounds h
    linarith [this.1]
  · intro powr cosq sinq use_stw_val baseFuel baseSTW fuelMax stw aws awa r hbf
    obtain ⟨bf, hbf, hpos⟩ := hbf
    subst hbf
    unfold EnginePerformance.fuel_lph_lambda
    have hnle : ¬ bf ≤ 0 := by linarith
    simp only [hnle, if_false]
    refine ⟨_, rfl, ?_⟩
    exact clamp_val_mem _ 0 14 (by norm_num)

/-- Witness for C1: the authoritative estimator with all inputs missing
emits 0, and the src/engine_performance.h lambda at RPM 2800 with its curve
values for that RPM emits a value in [0, 14]. -/
theorem c1_fuel_flow_never_invalid_witness :
    (0 ≤ EngineFuel.fuel_lph_raw (fun x => x) (fun _ => 1) (fun _ => 0) 1
          none none none none none ∧
     EngineFuel.fuel_lph_raw (fun x => x) (fun _ => 1) (fun _ => 0) 1
          none none none none none ≤ 14) ∧
    (∃ v, EnginePerformance.fuel_lph_lambda (fun x => x) (fun _ => 1)
            (fun _ => 0) 1 (some 2.7) (some 6.4) (some 3.8)
            none none none (some 2800) = some v ∧ 0 ≤ v ∧ v ≤ 14) :=
  ⟨c1_fuel_flow_never_invalid.1 (fun x => x) (fun _ => 1) (fun _ => 0) 1
      none none none none none,
   c1_fuel_flow_never_invalid.2.2 (fun x => x) (fun _ => 1) (fun _ => 0) 1
      (some 2.7) (some 6.4) (some 3.8) none none none (some 2800)
      ⟨2.7, rfl, by norm_num⟩⟩

-- ===========================================================================
-- Claim C6
-- ===========================================================================

/-- C6: with the engine running and STW trusted and below the dock speed
threshold (the DOCKED state), the fuel estimate equals the idle fuel curve
evaluated at the current RPM, and that value never exceeds the rated fuel
ceiling curve at the same RPM; when the idle curve reading is invalid (NaN)
or not positive, the docked branch falls back to the fixed minimum idle
value 0.6. -/
theorem c6_docked_fuel_is_idle_curve
    (powr cosq sinq : ℚ → ℚ) (use_stw_cfg : ℚ)
    (s : ℚ) (sog_ms aws_ms awa_rad : Option ℚ) (v : ℚ)
    (hcfg : (1:ℚ)/2 ≤ use_stw_cfg)
    (hlo : 500 ≤ v * 60) (hhi : v * 60 ≤ 4500)
    (hdock : s * MS_TO_KTS < DOCK_SPEED_KTS) :
    ∃ idle, curve_lookup EngineFuel.idle_fuel_curve (v * 60) = some idle ∧
      EngineFuel.fuel_lph_raw powr cosq sinq use_stw_cfg (some s) sog_ms
        aws_ms awa_rad (some v) = idle ∧
      (∀ fm, curve_lookup EngineFuel.rated_fuel_curve (v * 60) = some fm →
        idle ≤ fm) ∧
      EngineFuel.docked_fuel none = (3:ℚ)/5 ∧
      (∀ y, y ≤ 0 → EngineFuel.docked_fuel (some y) = (3:ℚ)/5) := by
  obtain ⟨idle, hidle⟩ : ∃ y,
      curve_lookup EngineFuel.idle_fuel_curve (v * 60) = some y := ⟨_, rfl⟩
  have hpos := curve_lookup_range EngineFuel.idle_fuel_curve (v * 60)
    ((3:ℚ)/5) ((7:ℚ)/5) idle EngineFuel.idle_fuel_curve_sorted
    EngineFuel.idle_fuel_curve_bounds hidle
  refine ⟨idle, hidle, ?_, ?_, ?_, ?_⟩
  · have hrpm : EngineFuel.rpm_of_rev_s (some v) = some (v * 60) := by
      unfold EngineFuel.rpm_of_rev_s
      simp only []
      rw [if_neg]
      push_neg
      constructor <;> linarith
    unfold EngineFuel.fuel_lph_raw
    rw [hrpm]
    simp only []
    have hrun : ¬ (v * 60 < ENGINE_RUNNING_RPM) := by
      unfold ENGINE_RUNNING_RPM; linarith
    rw [if_neg hrun]
    have hdocked : EngineFuel.vessel_docked (decide ((1:ℚ)/2 ≤ use_stw_cfg))
        (Option.map (fun w => w * MS_TO_KTS) (some s))
        (Option.map (fun w => w * MS_TO_KTS) sog_ms) = true := by
      simp [EngineFuel.vessel_docked, hcfg, hdock]
      left
      linarith
    rw [if_pos hdocked, hidle]
    unfold EngineFuel.docked_fuel
    simp only []
    rw [if_neg (by linarith [hpos.1])]
  · intro fm hfm
    exact EngineFuel.idle_le_rated (v * 60) hlo hhi idle fm hidle hfm
  · unfold EngineFuel.docked_fuel
    norm_num
  · intro y hy
    unfold EngineFuel.docked_fuel
    simp only []
    rw [if_pos hy]
    norm_num

/-- Witness for C6, the dock classification test of the spec: RPM 2800
(rev/s = 140/3), STW 0.05 m/s (about 0.097 kn, below the 0.15 kn dock
threshold), trust-STW flag set. -/
theorem c6_docked_fuel_is_idle_curve_witness :
    ∃ idle,
      curve_lookup EngineFuel.idle_fuel_curve ((140:ℚ)/3 * 60) = some idle ∧
      EngineFuel.fuel_lph_raw (fun x => x) (fun _ => 1) (fun _ => 0) 1
        (some (1/20)) none none none (some ((140:ℚ)/3)) = idle ∧
      (∀ fm, curve_lookup EngineFuel.rated_fuel_curve ((140:ℚ)/3 * 60) =
          some fm → idle ≤ fm) ∧
      EngineFuel.docked_fuel none = (3:ℚ)/5 ∧
      (∀ y, y ≤ 0 → EngineFuel.docked_fuel (some y) = (3:ℚ)/5) :=
  c6_docked_fuel_is_idle_curve (fun x => x) (fun _ => 1) (fun _ => 0) 1
    (1/20) none none none ((140:ℚ)/3) (by norm_num) (by norm_num)
    (by norm_num) (by unfold MS_TO_KTS DOCK_SPEED_KTS; norm_num)

-- ===========================================================================
-- Claim C3
-- ===========================================================================

/-- C3: the STW deficit factor applied in the UNDERWAY computation is never
below 1.0, and, for fixed RPM and fixed wind inputs, with STW trusted and
valid (passing the fouling sanity check) and below the baseline STW for that
RPM, decreasing STW never decreases the fuel estimate.  powr stands for
fun t => powf t 0.6, assumed monotone on [1, oo) as the real function is. -/
theorem c3_stw_deficit_monotone :
    (∀ powr u r stw_kts baseSTW,
      1 ≤ EngineFuel.stw_deficit_factor powr u r stw_kts baseSTW) ∧
    (∀ powr cosq sinq use_stw_cfg sog_ms aws_ms awa_rad v s s',
      (∀ x y, (1:ℚ) ≤ x → x ≤ y → powr x ≤ powr y) →
      (1:ℚ)/2 ≤ use_stw_cfg →
      500 ≤ v * 60 → v * 60 ≤ 4500 →
      s' ≤ s →
      DOCK_SPEED_KTS ≤ s' * MS_TO_KTS →
      ¬ stw_invalid (v * 60) (s * MS_TO_KTS) →
      ¬ stw_invalid (v * 60) (s' * MS_TO_KTS) →
      (∀ bs, curve_lookup EngineFuel.baseline_stw_curve (v * 60) = some bs →
        s * MS_TO_KTS ≤ bs) →
      EngineFuel.fuel_lph_raw powr cosq sinq use_stw_cfg (some s) sog_ms
        aws_ms awa_rad (some v) ≤
      EngineFuel.fuel_lph_raw powr cosq sinq use_stw_cfg (some s') sog_ms
        aws_ms awa_rad (some v)) := by
  constructor
  · intro powr u r stw_kts baseSTW
    exact (EngineFuel.stw_deficit_factor_range powr u r stw_kts baseSTW).1
  · intro powr cosq sinq use_stw_cfg sog_ms aws_ms awa_rad v s s'
      hpm hcfg hlo hhi hss hdockge hv hv' hbelow
    have hM : (0:ℚ) < MS_TO_KTS := by unfold MS_TO_KTS; norm_num
    have hsM : s' * MS_TO_KTS ≤ s * MS_TO_KTS :=
      mul_le_mul_of_nonneg_right hss hM.le
    have hdockge2 : DOCK_SPEED_KTS ≤ s * MS_TO_KTS := le_trans hdockge hsM
    have hrpm : EngineFuel.rpm_of_rev_s (some v) = some (v * 60) := by
      unfold EngineFuel.rpm_of_rev_s
      simp only []
      rw [if_neg]
      push_neg
      constructor <;> linarith
    have hrun : ¬ (v * 60 < ENGINE_RUNNING_RPM) := by
      unfold ENGINE_RUNNING_RPM; linarith
    unfold EngineFuel.fuel_lph_raw
    rw [hrpm]
    simp only [if_neg hrun, Option.map_some']
    rw [EngineFuel.vessel_docked_stw_ge _ _ _ hdockge2,
      EngineFuel.vessel_docked_stw_ge _ _ _ hdockge]
    by_cases hd : EngineFuel.vessel_docked (decide ((1:ℚ)/2 ≤ use_stw_cfg))
        none (Option.map (fun w => w * MS_TO_KTS) sog_ms) = true
    · rw [if_pos hd, if_pos hd]
    · rw [if_neg hd, if_neg hd]
      obtain ⟨bf, hbf⟩ : ∃ y,
          curve_lookup EngineFuel.baseline_fuel_curve (v * 60) = some y :=
        ⟨_, rfl⟩
      obtain ⟨fm, hfm⟩ : ∃ y,
          curve_lookup EngineFuel.rated_fuel_curve (v * 60) = some y :=
        ⟨_, rfl⟩
      apply EngineFuel.underway_fuel_le_of_factor_le powr cosq sinq _ _
        _ _ (Option.map (fun w => w * MS_TO_KTS) aws_ms) awa_rad bf fm hbf hfm
      apply EngineFuel.stw_deficit_factor_stw_antitone powr _ _
        (s * MS_TO_KTS) (s' * MS_TO_KTS) _ hpm
        (lt_of_lt_of_le (by unfold DOCK_SPEED_KTS; norm_num) hdockge)
        hsM hv hv'

/-- Witness for C3 at RPM 2800: lowering a valid STW from 6 kn to 4 kn
never lowers the fuel estimate. -/
theorem c3_stw_deficit_monotone_witness :
    EngineFuel.fuel_lph_raw (fun x => x) (fun _ => 1) (fun _ => 0) 1
      (some (6 / MS_TO_KTS)) none none none (some ((140:ℚ)/3)) ≤
    EngineFuel.fuel_lph_raw (fun x => x) (fun _ => 1) (fun _ => 0) 1
      (some (4 / MS_TO_KTS)) none none none (some ((140:ℚ)/3)) := by
  have hM : (MS_TO_KTS : ℚ) ≠ 0 := by unfold MS_TO_KTS; norm_num
  have h6 : (6 / MS_TO_KTS) * MS_TO_KTS = 6 := by field_simp
  have h4 : (4 / MS_TO_KTS) * MS_TO_KTS = 4 := by field_simp
  apply c3_stw_deficit_monotone.2 (fun x => x) (fun _ => 1) (fun _ => 0) 1
    none none none ((140:ℚ)/3) (6 / MS_TO_KTS) (4 / MS_TO_KTS)
  · intro x y h1 h2; exact h2
  · norm_num
  · norm_num
  · norm_num
  · unfold MS_TO_KTS; norm_num
  · rw [h4]; unfold DOCK_SPEED_KTS; norm_num
  · rw [h6]; unfold stw_invalid; push_neg; norm_num
  · rw [h4]; unfold stw_invalid; push_neg; norm_num
  · intro bs hbs
    rw [h6]
    have : EngineFuel.baseline_stw_curve = [((500:ℚ), (0:ℚ)), (1000, 0),
        (1800, 2.5), (2000, 4.3), (2400, 5), (2800, 6.4), (3200, 7.3),
        (3600, 7.45), (3800, 7.6), (3900, 7.6)] := rfl
    rw [this] at hbs
    simp only [curve_lookup, Option.some.injEq] at hbs
    rw [← hbs]
    norm_num [interpolate]

-- ===========================================================================
-- Claim C4
-- ===========================================================================

/-- C4 counterexample: with a genuine STW deficit at RPM 2400 (STW 4.5 kn
against a 5 kn baseline, deficit factor strictly above 1), supplying a
strong tailwind (AWS 30 kn, AWA pi) yields a strictly lower fuel estimate
than no wind at all at the same RPM and STW.  The model functions used for
powf, cosf and sinf satisfy the structural facts of the real ones: the
power function is monotone on [1, oo) and at least 1 there, and the
cosine and sine models are bounded by 1 in absolute value. -/
theorem c4_tailwind_counterexample :
    (∀ x y, (1:ℚ) ≤ x → x ≤ y → (fun t : ℚ => t) x ≤ (fun t : ℚ => t) y) ∧
    (∀ x : ℚ, |(fun _ : ℚ => (-1:ℚ)) x| ≤ 1) ∧
    (∀ x : ℚ, |(fun _ : ℚ => (0:ℚ)) x| ≤ 1) ∧
    (∀ x, (1:ℚ) ≤ x → 1 ≤ (fun t : ℚ => t) x) ∧
    1 < EngineFuel.stw_deficit_factor (fun t => t) true 2400
        (some ((9:ℚ)/2)) (curve_lookup EngineFuel.baseline_stw_curve 2400) ∧
    EngineFuel.fuel_lph_raw (fun t => t) (fun _ => -1) (fun _ => 0) 1
        (some ((9:ℚ)/2 / MS_TO_KTS)) none (some (30 / MS_TO_KTS)) (some PI_F)
        (some 40) <
      EngineFuel.fuel_lph_raw (fun t => t) (fun _ => -1) (fun _ => 0) 1
        (some ((9:ℚ)/2 / MS_TO_KTS)) none none none (some 40) := by
  refine ⟨fun x y h1 h2 => h2, fun x => by norm_num, fun x => by norm_num,
    fun x h1 => h1, ?_, ?_⟩
  · norm_num [EngineFuel.stw_deficit_factor, EngineFuel.baseline_stw_curve,
      curve_lookup, interpolate, stw_invalid, clamp_val, DOCK_SPEED_KTS]
  · have hL : EngineFuel.fuel_lph_raw (fun t => t) (fun _ => -1) (fun _ => 0) 1
        (some ((9:ℚ)/2 / MS_TO_KTS)) none (some (30 / MS_TO_KTS)) (some PI_F)
        (some 40) = 9/4 := by
      norm_num [EngineFuel.fuel_lph_raw, EngineFuel.rpm_of_rev_s,
        EngineFuel.vessel_docked, EngineFuel.underway_fuel,
        EngineFuel.stw_deficit_factor, EngineFuel.docked_fuel,
        wind_load_factor, clamp_val, curve_lookup, interpolate,
        EngineFuel.baseline_fuel_curve, EngineFuel.baseline_stw_curve,
        EngineFuel.rated_fuel_curve, EngineFuel.idle_fuel_curve, stw_invalid,
        MS_TO_KTS, DOCK_SPEED_KTS, ENGINE_RUNNING_RPM, PI_F]
    have hR : EngineFuel.fuel_lph_raw (fun t => t) (fun _ => -1) (fun _ => 0) 1
        (some ((9:ℚ)/2 / MS_TO_KTS)) none none none (some 40) = 49/20 := by
      norm_num [EngineFuel.fuel_lph_raw, EngineFuel.rpm_of_rev_s,
        EngineFuel.vessel_docked, EngineFuel.underway_fuel,
        EngineFuel.stw_deficit_factor, EngineFuel.docked_fuel,
        wind_load_factor, clamp_val, curve_lookup, interpolate,
        EngineFuel.baseline_fuel_curve, EngineFuel.baseline_stw_curve,
        EngineFuel.rated_fuel_curve, EngineFuel.idle_fuel_curve, stw_invalid,
        MS_TO_KTS, DOCK_SPEED_KTS, ENGINE_RUNNING_RPM, PI_F]
    rw [hL, hR]
    norm_num

/-- C4 amended: supplying apparent wind multiplies the estimate by the
clamped wind factor only and leaves the STW deficit factor unchanged, so
for every input the fuel estimate with wind is at least 0.9 times the
no-wind estimate at the same RPM and STW: a favorable wind can relieve at
most 10 percent and never cancels the STW deficit contribution below that
bound. -/
theorem c4_wind_relief_bounded (powr cosq sinq : ℚ → ℚ) (use_stw_cfg : ℚ)
    (stw_ms sog_ms aws_ms awa_rad rps : Option ℚ) :
    (9:ℚ)/10 * EngineFuel.fuel_lph_raw powr cosq sinq use_stw_cfg
        stw_ms sog_ms none none rps ≤
    EngineFuel.fuel_lph_raw powr cosq sinq use_stw_cfg
        stw_ms sog_ms aws_ms awa_rad rps := by
  unfold EngineFuel.fuel_lph_raw
  cases hr : EngineFuel.rpm_of_rev_s rps with
  | none => norm_num
  | some r =>
    simp only []
    by_cases hrun : r < ENGINE_RUNNING_RPM
    · simp only [if_pos hrun]; norm_num
    · simp only [if_neg hrun]
      by_cases hd : EngineFuel.vessel_docked (decide ((1:ℚ)/2 ≤ use_stw_cfg))
          (Option.map (fun v => v * MS_TO_KTS) stw_ms)
          (Option.map (fun v => v * MS_TO_KTS) sog_ms) = true
      · simp only [if_pos hd]
        have := EngineFuel.docked_fuel_range r
        linarith [this.1]
      · simp only [if_neg hd]
        have h := EngineFuel.underway_fuel_wind_lower_bound powr cosq sinq
          (decide ((1:ℚ)/2 ≤ use_stw_cfg)) r
          (Option.map (fun v => v * MS_TO_KTS) stw_ms)
          (Option.map (fun v => v * MS_TO_KTS) aws_ms) awa_rad
        exact h

-- ===========================================================================
-- Claims C2 and C10
-- ===========================================================================

/-- C2: for every latched estimator state and every fuel-flow input the
engine load output of src/engine_load.h is a value in [0, 1] (never NaN by
construction), the power derived from fuel is never negative, and whenever
the latched revolution rate is unknown or below the 500 RPM running
threshold — in particular right after a fresh sample below the threshold —
the load is exactly 0 regardless of any residual fuel value. -/
theorem c2_engine_load_range_and_cutoff :
    (∀ st kW, 0 ≤ EngineLoad.load_fraction st kW ∧
      EngineLoad.load_fraction st kW ≤ 1) ∧
    (∀ lph, 0 ≤ EngineLoad.actual_power_kW lph) ∧
    (∀ st kW, st.rpm = none → EngineLoad.load_fraction st kW = 0) ∧
    (∀ st kW r, st.rpm = some r → r < ENGINE_RUNNING_RPM →
      EngineLoad.load_fraction st kW = 0) ∧
    (∀ st rps lph, 0 ≤ rps * 60 → rps * 60 < 500 →
      EngineLoad.load_fraction
        (EngineLoad.latch_rpm st (EngineLoad.rpm_sanitize (some rps)))
        (EngineLoad.actual_power_kW lph) = 0) := by
  refine ⟨?_, ?_, ?_, ?_, ?_⟩
  · intro st kW
    unfold EngineLoad.load_fraction
    cases st.rpm with
    | none => norm_num
    | some r =>
      simp only []
      by_cases hr : r < ENGINE_RUNNING_RPM
      · simp only [if_pos hr]; norm_num
      · simp only [if_neg hr]
        cases st.max_kW with
        | none => norm_num
        | some m =>
          simp only []
          by_cases hm : m ≤ 0
          · simp only [if_pos hm]; norm_num
          · simp only [if_neg hm]
            exact clamp_val_mem _ 0 1 (by norm_num)
  · intro lph
    unfold EngineLoad.actual_power_kW
    cases lph with
    | none => norm_num
    | some v =>
      simp only []
      by_cases hv : v ≤ 0
      · simp only [if_pos hv]; norm_num
      · simp only [if_neg hv]
        push_neg at hv
        unfold EngineLoad.FUEL_DENSITY_KG_PER_L EngineLoad.BSFC_G_PER_KWH
        positivity
  · intro st kW h
    unfold EngineLoad.load_fraction
    rw [h]
  · intro st kW r h hr
    unfold EngineLoad.load_fraction
    rw [h]
    simp only [if_pos hr]
  · intro st rps lph h0 h500
    have hsan : EngineLoad.rpm_sanitize (some rps) = some (rps * 60) := by
      unfold EngineLoad.rpm_sanitize
      simp only []
      rw [if_neg]
      push_neg
      constructor <;> linarith
    rw [hsan]
    unfold EngineLoad.latch_rpm EngineLoad.load_fraction
    simp only []
    rw [if_pos (by unfold ENGINE_RUNNING_RPM; linarith)]

/-- Witness for C2: a fresh 5 rev/s sample (300 RPM, below the running
threshold) forces the load to exactly 0 even with 2 L/h of residual fuel. -/
theorem c2_engine_load_range_and_cutoff_witness :
    EngineLoad.load_fraction
      (EngineLoad.latch_rpm EngineLoad.initial_state
        (EngineLoad.rpm_sanitize (some 5)))
      (EngineLoad.actual_power_kW (some 2)) = 0 :=
  c2_engine_load_range_and_cutoff.2.2.2.2 EngineLoad.initial_state 5 (some 2)
    (by norm_num) (by norm_num)

/-- C10: whenever the latched maximum-power value is unknown (NaN, in
particular never latched since startup) or non-positive, the load output is
exactly 0, for every latched RPM (running or not) and every power input
(positive or not); and the latch itself never stores an invalid or
non-positive maximum power. -/
theorem c10_load_zero_without_max_power :
    (∀ st kW, st.max_kW = none → EngineLoad.load_fraction st kW = 0) ∧
    (∀ st kW m, st.max_kW = some m → m ≤ 0 →
      EngineLoad.load_fraction st kW = 0) ∧
    (∀ kW, EngineLoad.load_fraction EngineLoad.initial_state kW = 0) ∧
    (∀ st, EngineLoad.latch_max_kW st none = st) ∧
    (∀ st m, m ≤ 0 → EngineLoad.latch_max_kW st (some m) = st) := by
  refine ⟨?_, ?_, ?_, ?_, ?_⟩
  · intro st kW h
    unfold EngineLoad.load_fraction
    rw [h]
    cases st.rpm with
    | none => rfl
    | some r =>
      simp only []
      by_cases hr : r < ENGINE_RUNNING_RPM
      · simp only [if_pos hr]
      · simp only [if_neg hr]
  · intro st kW m h hm
    unfold EngineLoad.load_fraction
    rw [h]
    cases st.rpm with
    | none => rfl
    | some r =>
      simp only []
      by_cases hr : r < ENGINE_RUNNING_RPM
      · simp only [if_pos hr]
      · simp only [if_neg hr, if_pos hm]
  · intro kW
    rfl
  · intro st
    rfl
  · intro st m hm
    unfold EngineLoad.latch_max_kW
    simp only []
    rw [if_neg (not_lt.mpr hm)]

/-- Witness for C10: with RPM latched at a running 2800 but no max power
ever latched, 10 kW of derived power still reports load 0. -/
theorem c10_load_zero_without_max_power_witness :
    EngineLoad.load_fraction
      { rpm := some 2800, max_kW := none } 10 = 0 :=
  c10_load_zero_without_max_power.1 { rpm := some 2800, max_kW := none } 10 rfl

-- ===========================================================================
-- Claim C5
-- ===========================================================================

theorem chain_le_of_le (c a : ℕ) (l : List ℕ) (hca : c ≤ a)
    (h : List.Chain (fun x y => x ≤ y) a l) :
    List.Chain (fun x y => x ≤ y) c l := by
  cases l with
  | nil => exact List.Chain.nil
  | cons b t =>
    rcases List.chain_cons.mp h with ⟨hab, ht⟩
    exact List.chain_cons.mpr ⟨le_trans hca hab, ht⟩

theorem chain_le_forall (a : ℕ) (l : List ℕ)
    (h : List.Chain (fun x y => x ≤ y) a l) : ∀ x ∈ l, a ≤ x := by
  induction l generalizing a with
  | nil => intro x hx; simp at hx
  | cons b t ih =>
    rcases List.chain_cons.mp h with ⟨hab, ht⟩
    intro x hx
    rcases List.mem_cons.mp hx with hx | hx
    · rw [hx]; exact hab
    · exact le_trans hab (ih b ht x hx)

theorem rpm_stable_run_stale (samples : List (ℕ × Option ℚ)) (t0 : ℕ)
    (hinv : ∀ p ∈ samples, RpmSensor.rpm_invalid p.2)
    (hst : ∀ p ∈ samples, RpmSensor.RPM_HOLD_MS ≤ p.1 - t0) :
    RpmSensor.rpm_stable_run
        { last_valid_rpm := 0, last_valid_ms := t0 } samples =
      samples.map (fun _ => (0:ℚ)) := by
  induction samples with
  | nil => rfl
  | cons p rest ih =>
    obtain ⟨t, smp⟩ := p
    have hhold : RpmSensor.rpm_stable_hold
        { last_valid_rpm := 0, last_valid_ms := t0 } t =
        ({ last_valid_rpm := 0, last_valid_ms := t0 }, 0) := by
      unfold RpmSensor.rpm_stable_hold
      rw [if_neg (not_lt.mpr (hst (t, smp) (by simp)))]
    have hstep : RpmSensor.rpm_stable_step
        { last_valid_rpm := 0, last_valid_ms := t0 } t smp =
        ({ last_valid_rpm := 0, last_valid_ms := t0 }, 0) := by
      unfold RpmSensor.rpm_stable_step
      cases smp with
      | none => exact hhold
      | some r =>
        simp only []
        rw [if_neg (not_le.mpr (hinv (t, some r) (by simp) r rfl))]
        exact hhold
    unfold RpmSensor.rpm_stable_run
    rw [hstep]
    simp only [List.map_cons]
    congr 1
    exact ih (fun q hq => hinv q (by simp [hq]))
      (fun q hq => hst q (by simp [hq]))

theorem rpm_stable_run_hold (v : ℚ) (t0 : ℕ)
    (samples : List (ℕ × Option ℚ)) (hv : ENGINE_RUNNING_RPM ≤ v)
    (hinv : ∀ p ∈ samples, RpmSensor.rpm_invalid p.2)
    (hchain : List.Chain (fun x y => x ≤ y) t0 (samples.map Prod.fst)) :
    RpmSensor.rpm_stable_run
        { last_valid_rpm := v, last_valid_ms := t0 } samples =
      samples.map
        (fun p => if p.1 - t0 < RpmSensor.RPM_HOLD_MS then v else 0) := by
  induction samples with
  | nil => rfl
  | cons p rest ih =>
    obtain ⟨t, smp⟩ := p
    simp only [List.map_cons] at hchain
    rcases List.chain_cons.mp hchain with ⟨ht0t, hrest⟩
    have hholdval : RpmSensor.rpm_stable_hold
        { last_valid_rpm := v, last_valid_ms := t0 } t =
        if t - t0 < RpmSensor.RPM_HOLD_MS
        then ({ last_valid_rpm := v, last_valid_ms := t0 }, v)
        else ({ last_valid_rpm := 0, last_valid_ms := t0 }, 0) := by
      unfold RpmSensor.rpm_stable_hold
      by_cases hw : t - t0 < RpmSensor.RPM_HOLD_MS
      · simp only [if_pos hw]
      · simp only [if_neg hw]
    have hstep : RpmSensor.rpm_stable_step
        { last_valid_rpm := v, last_valid_ms := t0 } t smp =
        if t - t0 < RpmSensor.RPM_HOLD_MS
        then ({ last_valid_rpm := v, last_valid_ms := t0 }, v)
        else ({ last_valid_rpm := 0, last_valid_ms := t0 }, 0) := by
      unfold RpmSensor.rpm_stable_step
      cases smp with
      | none => exact hholdval
      | some r =>
        simp only []
        rw [if_neg (not_le.mpr (hinv (t, some r) (by simp) r rfl))]
        exact hholdval
    unfold RpmSensor.rpm_stable_run
    rw [hstep]
    by_cases hw : t - t0 < RpmSensor.RPM_HOLD_MS
    · rw [if_pos hw]
      simp only [List.map_cons, if_pos hw]
      congr 1
      exact ih (fun q hq => hinv q (by simp [hq]))
        (chain_le_of_le t0 t _ ht0t hrest)
    · rw [if_neg hw]
      simp only [List.map_cons, if_neg hw]
      congr 1
      have hall := chain_le_forall t (rest.map Prod.fst) hrest
      have hstale := rpm_stable_run_stale rest t0
        (fun q hq => hinv q (by simp [hq]))
        (fun q hq => by
          have htq : t ≤ q.1 := hall q.1 (List.mem_map_of_mem Prod.fst hq)
          have := not_lt.mp hw
          omega)
      rw [hstale]
      apply List.map_congr_left
      intro q hq
      have htq : t ≤ q.1 := hall q.1 (List.mem_map_of_mem Prod.fst hq)
      have := not_lt.mp hw
      rw [if_neg (by omega)]

/-- C5: a valid revolution-rate sample latches its value and timestamp;
afterwards, if only invalid samples (NaN or below the running threshold)
arrive at nondecreasing times, the stabilizer emits exactly the latched
value for every sample inside the 2000 ms hold window, emits 0 from the
first sample at or past the window, and keeps emitting 0 thereafter.  The
outputs are plain rationals throughout: the stabilizer never emits NaN. -/
theorem c5_hold_then_decay :
    (∀ st now v, ENGINE_RUNNING_RPM ≤ v →
      RpmSensor.rpm_stable_step st now (some v) =
        ({ last_valid_rpm := v, last_valid_ms := now }, v)) ∧
    (∀ v t0 samples, ENGINE_RUNNING_RPM ≤ v →
      (∀ p ∈ samples, RpmSensor.rpm_invalid p.2) →
      List.Chain (fun x y => x ≤ y) t0 (samples.map Prod.fst) →
      RpmSensor.rpm_stable_run
          { last_valid_rpm := v, last_valid_ms := t0 } samples =
        samples.map
          (fun p => if p.1 - t0 < RpmSensor.RPM_HOLD_MS then v else 0)) := by
  constructor
  · intro st now v hval
    unfold RpmSensor.rpm_stable_step
    simp only []
    rw [if_pos hval]
  · intro v t0 samples hv hinv hchain
    exact rpm_stable_run_hold v t0 samples hv hinv hchain

/-- Witness for C5: latch 800 RPM at time 0, then feed invalid samples at
times 500, 1999, 2000 and 3000; the output holds 800 through the 2000 ms
window and is 0 from the moment the window elapses. -/
theorem c5_hold_then_decay_witness :
    RpmSensor.rpm_stable_run
        { last_valid_rpm := 800, last_valid_ms := 0 }
        [(500, none), (1999, some 100), (2000, none), (3000, none)] =
      [800, 800, 0, 0] := by
  have h := c5_hold_then_decay.2 800 0
    [(500, none), (1999, some 100), (2000, none), (3000, none)]
    (by unfold ENGINE_RUNNING_RPM; norm_num)
    (by
      intro p hp
      simp only [List.mem_cons, List.mem_singleton] at hp
      rcases hp with hp | hp | hp | hp | hp
      · rw [hp]; intro r hr; simp at hr
      · rw [hp]; intro r hr
        simp only [Option.some.injEq] at hr
        rw [← hr]; unfold ENGINE_RUNNING_RPM; norm_num
      · rw [hp]; intro r hr; simp at hr
      · rw [hp]; intro r hr; simp at hr
      · exact absurd hp (by simp))
    (by
      simp only [List.map_cons, List.map_nil]
      exact List.Chain.cons (by norm_num) (List.Chain.cons (by norm_num)
        (List.Chain.cons (by norm_num) (List.Chain.cons (by norm_num)
          List.Chain.nil))))
  rw [h]
  norm_num [RpmSensor.RPM_HOLD_MS]

-- ===========================================================================
-- Claims C8 and C9
-- ===========================================================================

theorem inv_construct (s0 : ℚ) : EngineHours.Inv (EngineHours.construct s0) := by
  unfold EngineHours.Inv EngineHours.construct
  refine ⟨le_refl _, le_refl _, fun _ => rfl, fun hne => absurd rfl hne⟩

theorem inv_set (st : EngineHours.State) (v : Option ℚ)
    (hI : EngineHours.Inv st) : EngineHours.Inv (EngineHours.set st v) := by
  cases v with
  | none => exact hI
  | some w => exact hI

theorem inv_tick (st : EngineHours.State) (now : ℕ)
    (hI : EngineHours.Inv st) (hle : st.last_tick_ms ≤ now) :
    EngineHours.Inv (EngineHours.tick st now) := by
  obtain ⟨h1, h2, h3, h4⟩ := hI
  unfold EngineHours.tick
  by_cases h0 : st.last_tick_ms = 0
  · rw [if_pos h0]
    have heq := h3 h0
    refine ⟨le_refl _, h2, fun _ => heq, fun _ => ?_⟩
    constructor
    · rw [heq]
      simp
    · simp [EngineHours.SAVE_INTERVAL_MS]
  · rw [if_neg h0]
    simp only []
    obtain ⟨hd, hg⟩ := h4 h0
    have hnow0 : now ≠ 0 := by omega
    have hsl : st.last_save_ms ≤ now := le_trans h1 hle
    have hc0 : (0:ℚ) ≤ ((now - st.last_tick_ms : ℕ) : ℚ) / 3600000 := by
      positivity
    have hhours : ∀ b : Bool,
        st.hours ≤ (if b = true then
          st.hours + ((now - st.last_tick_ms : ℕ) : ℚ) / 3600000
        else st.hours) ∧
        (if b = true then
          st.hours + ((now - st.last_tick_ms : ℕ) : ℚ) / 3600000
        else st.hours) ≤
          st.hours + ((now - st.last_tick_ms : ℕ) : ℚ) / 3600000 := by
      intro b
      cases b
      · simp only [Bool.false_eq_true, if_false]
        constructor
        · exact le_refl _
        · linarith
      · simp only [if_true]
        constructor
        · linarith
        · exact le_refl _
    by_cases hs : EngineHours.SAVE_INTERVAL_MS ≤ now - st.last_save_ms
    · simp only [if_pos hs]
      refine ⟨le_refl _, le_refl _, fun _ => rfl, fun _ => ?_⟩
      constructor
      · simp
      · simp [EngineHours.SAVE_INTERVAL_MS]
    · simp only [if_neg hs]
      have hgap : now - st.last_save_ms < EngineHours.SAVE_INTERVAL_MS := by
        omega
      have hb := hhours (EngineHours.next_running st)
      refine ⟨hsl, le_trans h2 hb.1, fun hzero => absurd hzero hnow0,
        fun _ => ?_⟩
      constructor
      · have hsum : ((st.last_tick_ms - st.last_save_ms : ℕ) : ℚ) +
            ((now - st.last_tick_ms : ℕ) : ℚ) =
            ((now - st.last_save_ms : ℕ) : ℚ) := by
          have e : (st.last_tick_ms - st.last_save_ms) +
              (now - st.last_tick_ms) = now - st.last_save_ms := by omega
          push_cast [← e]
          ring
        have := hb.2
        simp only []
        linarith [hd, this, hsum.symm.le, hsum.le]
      · exact hgap

theorem inv_run (st : EngineHours.State) (evs : List EngineHours.Event)
    (hI : EngineHours.Inv st) (hw : EngineHours.WellTimed st evs) :
    EngineHours.Inv (EngineHours.run st evs) := by
  induction evs generalizing st with
  | nil => exact hI
  | cons e rest ih =>
    cases e with
    | sample v => exact ih _ (inv_set st v hI) hw
    | tick now =>
      obtain ⟨hle, hw2⟩ := hw
      exact ih _ (inv_tick st now hI hle) hw2

theorem inv_gap_bound (st : EngineHours.State) (hI : EngineHours.Inv st) :
    st.hours - st.stored ≤ (EngineHours.SAVE_INTERVAL_MS : ℚ) / 3600000 := by
  obtain ⟨h1, h2, h3, h4⟩ := hI
  by_cases h0 : st.last_tick_ms = 0
  · rw [h3 h0]
    norm_num [EngineHours.SAVE_INTERVAL_MS]
  · obtain ⟨hd, hg⟩ := h4 h0
    have hcast : ((st.last_tick_ms - st.last_save_ms : ℕ) : ℚ) ≤
        ((EngineHours.SAVE_INTERVAL_MS : ℕ) : ℚ) :=
      Nat.cast_le.mpr (le_of_lt hg)
    linarith [hd, hcast]

/-- C8 counterexample: start from an empty store, establish the timebase at
1000 ms, latch a running 10 rev/s, tick at 2000 ms (the engine is running
and 1000 ms are accumulated), latch 1 rev/s (below the running threshold),
tick at 3000 ms.  The running flag falls from true to false on that tick —
a falling edge — yet no write happens: the store still holds 0 while the
accumulator holds 1/3600 h, refuting the claim that a write occurs on a
detected falling edge of running. -/
theorem c8_no_save_on_falling_edge :
    (EngineHours.run (EngineHours.construct 0)
      [EngineHours.Event.tick 1000, EngineHours.Event.sample (some 10),
       EngineHours.Event.tick 2000]).engine_running = true ∧
    (EngineHours.run (EngineHours.construct 0)
      [EngineHours.Event.tick 1000, EngineHours.Event.sample (some 10),
       EngineHours.Event.tick 2000, EngineHours.Event.sample (some 1),
       EngineHours.Event.tick 3000]).engine_running = false ∧
    (EngineHours.run (EngineHours.construct 0)
      [EngineHours.Event.tick 1000, EngineHours.Event.sample (some 10),
       EngineHours.Event.tick 2000, EngineHours.Event.sample (some 1),
       EngineHours.Event.tick 3000]).hours = 1/3600 ∧
    (EngineHours.run (EngineHours.construct 0)
      [EngineHours.Event.tick 1000, EngineHours.Event.sample (some 10),
       EngineHours.Event.tick 2000, EngineHours.Event.sample (some 1),
       EngineHours.Event.tick 3000]).stored = 0 := by
  refine ⟨?_, ?_, ?_, ?_⟩ <;>
    norm_num [EngineHours.run, EngineHours.tick, EngineHours.set,
      EngineHours.construct, EngineHours.next_running,
      EngineHours.REV_S_RUNNING_THRESHOLD, EngineHours.SAVE_INTERVAL_MS]

/-- C8 amended: on construction the accumulator restores the persisted
value before any other processing; along every well-timed event trace the
persisted value never exceeds the accumulated hours and lags them by at
most one persistence interval (10 s) of accumulation, i.e. 1/360 h; and a
restart constructed from the final store restores exactly the last value
written.  (Writes happen only at the bounded periodic rate; the code has no
additional write on a falling edge of running.) -/
theorem c8_hours_persistence_round_trip :
    (∀ s0 : ℚ, (EngineHours.construct s0).hours = s0 ∧
      (EngineHours.construct s0).stored = s0) ∧
    (∀ (s0 : ℚ) (evs : List EngineHours.Event),
      EngineHours.WellTimed (EngineHours.construct s0) evs →
      (EngineHours.run (EngineHours.construct s0) evs).stored ≤
        (EngineHours.run (EngineHours.construct s0) evs).hours ∧
      (EngineHours.run (EngineHours.construct s0) evs).hours -
        (EngineHours.run (EngineHours.construct s0) evs).stored ≤
          (EngineHours.SAVE_INTERVAL_MS : ℚ) / 3600000 ∧
      (EngineHours.construct
        ((EngineHours.run (EngineHours.construct s0) evs).stored)).hours =
        (EngineHours.run (EngineHours.construct s0) evs).stored) := by
  constructor
  · intro s0
    exact ⟨rfl, rfl⟩
  · intro s0 evs hw
    have hI := inv_run (EngineHours.construct s0) evs (inv_construct s0) hw
    exact ⟨hI.2.1, inv_gap_bound _ hI, rfl⟩

/-- Witness for C8 amended: a trace with two ticks 11 s apart triggers one
save, and the restart restores the saved value. -/
theorem c8_hours_persistence_round_trip_witness :
    (EngineHours.run (EngineHours.construct 5)
      [EngineHours.Event.sample (some 10), EngineHours.Event.tick 1000,
       EngineHours.Event.tick 12000]).stored ≤
      (EngineHours.run (EngineHours.construct 5)
        [EngineHours.Event.sample (some 10), EngineHours.Event.tick 1000,
         EngineHours.Event.tick 12000]).hours ∧
    (EngineHours.run (EngineHours.construct 5)
      [EngineHours.Event.sample (some 10), EngineHours.Event.tick 1000,
       EngineHours.Event.tick 12000]).hours -
      (EngineHours.run (EngineHours.construct 5)
        [EngineHours.Event.sample (some 10), EngineHours.Event.tick 1000,
         EngineHours.Event.tick 12000]).stored ≤
      (EngineHours.SAVE_INTERVAL_MS : ℚ) / 3600000 ∧
    (EngineHours.construct
      ((EngineHours.run (EngineHours.construct 5)
        [EngineHours.Event.sample (some 10), EngineHours.Event.tick 1000,
         EngineHours.Event.tick 12000]).stored)).hours =
      (EngineHours.run (EngineHours.construct 5)
        [EngineHours.Event.sample (some 10), EngineHours.Event.tick 1000,
         EngineHours.Event.tick 12000]).stored :=
  c8_hours_persistence_round_trip.2 5
    [EngineHours.Event.sample (some 10), EngineHours.Event.tick 1000,
     EngineHours.Event.tick 12000]
    (by exact ⟨by decide, by decide, trivial⟩)

/-- C9: a NaN revolution-rate sample leaves the Hours Accumulator state
completely unchanged — latched rate, running flag, hours and store — while
any finite sample updates the latched rate and nothing else; and a timer
tick taken while the latched rate is NaN keeps the previous running flag. -/
theorem c9_nan_sample_ignored :
    (∀ st, EngineHours.set st none = st) ∧
    (∀ st v, (EngineHours.set st (some v)).last_rev_s = some v ∧
      (EngineHours.set st (some v)).engine_running = st.engine_running ∧
      (EngineHours.set st (some v)).hours = st.hours ∧
      (EngineHours.set st (some v)).stored = st.stored) ∧
    (∀ st now, st.last_rev_s = none →
      (EngineHours.tick st now).engine_running = st.engine_running) := by
  refine ⟨?_, ?_, ?_⟩
  · intro st
    rfl
  · intro st v
    exact ⟨rfl, rfl, rfl, rfl⟩
  · intro st now h
    unfold EngineHours.tick
    by_cases h0 : st.last_tick_ms = 0
    · rw [if_pos h0]
    · rw [if_neg h0]
      simp only []
      have hrun : EngineHours.next_running st = st.engine_running := by
        unfold EngineHours.next_running
        rw [h]
      by_cases hs : EngineHours.SAVE_INTERVAL_MS ≤ now - st.last_save_ms
      · simp only [if_pos hs, hrun]
      · simp only [if_neg hs, hrun]

/-- Witness for C9: a tick at 2000 ms with a NaN latch keeps the running
flag true. -/
theorem c9_nan_sample_ignored_witness :
    (EngineHours.tick
      { hours := 1, last_rev_s := none, engine_running := true,
        last_tick_ms := 1000, last_save_ms := 1000, stored := 1 }
      2000).engine_running = true :=
  c9_nan_sample_ignored.2.2
    { hours := 1, last_rev_s := none, engine_running := true,
      last_tick_ms := 1000, last_save_ms := 1000, stored := 1 }
    2000 rfl

end Yanmar
